import Mathlib

/-!
Shallow embedding of the departure-time optimizer (`src/lib/commute-service.ts`),
its time utilities (`src/lib/time-utils.ts`), and the traffic-classification
logic of the routes API handler (`src/app/api/routes/route.ts`).

Modelling conventions:
* Instants (`Date` values) are natural numbers of milliseconds.  Days are a
  fixed `86400000` ms with midnight at multiples of a day (local time is
  modelled without DST/timezone shifts); `date.setHours(h, m, 0, 0)` on "today"
  becomes `now / 86400000 * 86400000 + h * 3600000 + m * 60000`.
* `Math.round((end - start) / 60000)` on a non-negative integer difference is
  modelled exactly as `(end - start + 30000) / 60000` (floating-point noise in
  the quotient is far below the distance to the nearest half for the magnitudes
  involved, so JS half-up rounding agrees with this integer formula).
* The travel-time estimator (`estimateTravelTime`, an HTTP call) is an oracle
  `Nat → Except String RouteInfo` mapping a departure instant to either a
  route or an error message; origin/destination are fixed for one invocation.
* `Array.prototype.sort(comparator)` is modelled as a comparison sort
  (`List.insertionSort`) over the relation "comparator result ≤ 0"; the
  claims only constrain the output up to that ordering.
* `slowRatio > 0.5` / `> 0.2` comparisons on segment counts are modelled by
  the exact rational cross-multiplications `total < 2 * slow` / `total < 5 * slow`.
* The fields `depMs`/`arrMs` of `DepartureOption` and `calls` of `LoopResult`
  are ghost instrumentation: they record the raw instants that the code
  formats into strings and the trace of estimator invocations; no observable
  field is computed from them.  The source's `apiCallCount` equals
  `calls.length`.
-/

deriving instance DecidableEq for Except

namespace DepartSmart

/-- Number of milliseconds in one (DST-free) day. -/
def dayMs : Nat := 86400000

/-- `Number(c) - 48` for one digit character; JS digit value. -/
def charVal (c : Char) : Nat := c.toNat - 48

/-- The decimal digit character for `d ≤ 9`. -/
def digitChar (d : Nat) : Char := Char.ofNat (48 + d)

/-- The `\d` character class of the regex `/^\d{1,2}:\d{2}$/`. -/
def isDig (c : Char) : Bool := 48 ≤ c.toNat && c.toNat ≤ 57

/--
The front half of `parseTimeToDate` (src/lib/time-utils.ts, lines 39-44):
the regex test `/^\d{1,2}:\d{2}$/.test(timeString)` combined with
`timeString.split(":").map(Number)`.  A string passing the regex has exactly
one `:`, so the split yields the two all-digit components, and `Number` on
them is their decimal value.
-/
def parseHM (l : List Char) : Option (Nat × Nat) :=
  match l with
  | [d1, c, d4, d5] =>
    if c = ':' ∧ isDig d1 ∧ isDig d4 ∧ isDig d5 then
      some (charVal d1, 10 * charVal d4 + charVal d5)
    else none
  | [d1, d2, c, d4, d5] =>
    if c = ':' ∧ isDig d1 ∧ isDig d2 ∧ isDig d4 ∧ isDig d5 then
      some (10 * charVal d1 + charVal d2, 10 * charVal d4 + charVal d5)
    else none
  | _ => none

/--
`parseTimeToDate` (src/lib/time-utils.ts, lines 38-64): `null`/`undefined` or a
string failing the regex yields `null`; then hours/minutes are range-checked
(0-23 / 0-59); the instant is today at `hours:minutes`, advanced one day when
strictly before `now`.
-/
def parseTimeToDate (timeString : Option String) (now : Nat) : Option Nat :=
  match timeString with
  | none => none
  | some s =>
    match parseHM s.data with
    | none => none
    | some (hours, minutes) =>
      if 23 < hours ∨ 59 < minutes then none
      else
        let date := now / dayMs * dayMs + hours * 3600000 + minutes * 60000
        if date < now then some (date + dayMs) else some date

/-- `date.getHours()` of an instant. -/
def hourOf (t : Nat) : Nat := t % dayMs / 3600000

/-- `date.getMinutes()` of an instant. -/
def minuteOf (t : Nat) : Nat := t % 3600000 / 60000

/-- `n.toString().padStart(2, "0")` for `n < 100` (hours/minutes only). -/
def twoDigit (n : Nat) : List Char := [digitChar (n / 10), digitChar (n % 10)]

/-- `formatTimeForInput` (src/lib/time-utils.ts, lines 87-91): "HH:MM". -/
def formatTimeForInput (t : Nat) : String :=
  String.mk (twoDigit (hourOf t) ++ [':'] ++ twoDigit (minuteOf t))

/-- `addMinutes` (src/lib/time-utils.ts, lines 144-146). -/
def addMinutes (date : Nat) (minutes : Nat) : Nat := date + minutes * 60000

/--
`getTimeDifferenceInMinutes` (src/lib/time-utils.ts, lines 154-156):
`Math.round((end - start) / 60000)`.  Modelled for `start ≤ end`, the only
way the optimizer calls it (it validates `latestArrival > earliestDeparture`
first).
-/
def getTimeDifferenceInMinutes (startTime endTime : Nat) : Nat :=
  (endTime - startTime + 30000) / 60000

/-- The route data returned by one estimator call. -/
structure RouteInfo where
  durationInSeconds : Nat
  distanceInMeters : Nat
  trafficCondition : String
deriving DecidableEq

/-- `mapTrafficCondition` (src/lib/commute-service.ts, lines 227-241); the
`switch` over the provider's label, written as the equivalent chain of
string comparisons (`SEVERE` and `TRAFFIC_JAM` share the `"Very Heavy"`
branch, anything unknown defaults to `"Moderate"`). -/
def mapTrafficCondition (googleTrafficCondition : String) : String :=
  if googleTrafficCondition = "LIGHT" then "Light"
  else if googleTrafficCondition = "MODERATE" then "Moderate"
  else if googleTrafficCondition = "HEAVY" then "Heavy"
  else if googleTrafficCondition = "SEVERE" then "Very Heavy"
  else if googleTrafficCondition = "TRAFFIC_JAM" then "Very Heavy"
  else "Moderate"

/-- One entry pushed onto `departureTimeOptions` (commute-service.ts, lines 84-90).
`depMs`/`arrMs` are ghost fields (see module docstring). -/
structure DepartureOption where
  departureTime : String
  arrivalTime : String
  durationInTraffic : Nat
  trafficCondition : String
  distanceInMeters : Nat
  depMs : Nat
  arrMs : Nat
deriving DecidableEq

/-- The value returned by `calculateOptimalDepartureTime` (lines 126-144). -/
structure OptimizationResult where
  optimalDepartureTime : String
  estimatedArrivalTime : String
  durationInTraffic : Nat
  trafficCondition : String
  distanceInMeters : Nat
  departureTimeOptions : List DepartureOption
deriving DecidableEq

/-- The state accumulated by the sampling loop (lines 55-105).  `calls` is a
ghost trace of the departure instants passed to the estimator; the source's
`apiCallCount` is its length. -/
structure LoopResult where
  options : List DepartureOption
  apiCallErrors : Nat
  lastError : Option String
  calls : List Nat
deriving DecidableEq

/-- The option record built at lines 84-90 for departure instant `current`. -/
def mkDepartureOption (current : Nat) (routeInfo : RouteInfo) : DepartureOption :=
  let arrivalTime := current + routeInfo.durationInSeconds * 1000
  { departureTime := formatTimeForInput current
    arrivalTime := formatTimeForInput arrivalTime
    durationInTraffic := routeInfo.durationInSeconds
    trafficCondition := mapTrafficCondition routeInfo.trafficCondition
    distanceInMeters := routeInfo.distanceInMeters
    depMs := current
    arrMs := arrivalTime }

/--
The `while` loop of `calculateOptimalDepartureTime` (lines 70-105), recursing
on the remaining call budget `maxApiCalls - apiCallCount` (the guard
`apiCallCount < maxApiCalls` becomes "fuel left").  One iteration: if
`currentDepartureTime <= latestArrivalDate`, call the estimator; on success
record the option when `arrivalTime <= latestArrivalDate`; on failure bump
`apiCallErrors` and retain the most recent error; then advance 15 minutes.
-/
def sampleLoop (est : Nat → Except String RouteInfo) (latest : Nat) :
    Nat → Nat → LoopResult
  | _, 0 => { options := [], apiCallErrors := 0, lastError := none, calls := [] }
  | current, fuel + 1 =>
    if current ≤ latest then
      let rest := sampleLoop est latest (addMinutes current 15) fuel
      match est current with
      | Except.ok routeInfo =>
        let arrivalTime := current + routeInfo.durationInSeconds * 1000
        if arrivalTime ≤ latest then
          { options := mkDepartureOption current routeInfo :: rest.options
            apiCallErrors := rest.apiCallErrors
            lastError := rest.lastError
            calls := current :: rest.calls }
        else
          { options := rest.options
            apiCallErrors := rest.apiCallErrors
            lastError := rest.lastError
            calls := current :: rest.calls }
      | Except.error e =>
        { options := rest.options
          apiCallErrors := rest.apiCallErrors + 1
          lastError := match rest.lastError with
            | some m => some m
            | none => some e
          calls := current :: rest.calls }
    else { options := [], apiCallErrors := 0, lastError := none, calls := [] }

/-- `timeWindowMinutes` (line 45). -/
def timeWindowMinutes (earliest latest : Nat) : Nat :=
  getTimeDifferenceInMinutes earliest latest

/-- `maxApiCalls = Math.min(Math.ceil(timeWindowMinutes / 15), 12)` (line 63);
`(w + 14) / 15` is `⌈w / 15⌉` on naturals. -/
def maxApiCalls (earliest latest : Nat) : Nat :=
  min ((timeWindowMinutes earliest latest + 14) / 15) 12

/-- The whole sampling phase: the loop started at the earliest departure with
the full call budget. -/
def runSampling (est : Nat → Except String RouteInfo) (earliest latest : Nat) :
    LoopResult :=
  sampleLoop est latest earliest (maxApiCalls earliest latest)

/-- The sort comparator (lines 132-143): re-parse both departure strings,
nulls compare equal, a null sorts after a date, two dates compare by time. -/
def jsCompare (now : Nat) (a b : DepartureOption) : Int :=
  match parseTimeToDate (some a.departureTime) now,
        parseTimeToDate (some b.departureTime) now with
  | none, none => 0
  | none, some _ => 1
  | some _, none => -1
  | some dateA, some dateB => (dateA : Int) - (dateB : Int)

/-- "`a` sorts no later than `b`": comparator result `≤ 0`. -/
def jsLeProp (now : Nat) (a b : DepartureOption) : Prop := jsCompare now a b ≤ 0

instance (now : Nat) : DecidableRel (jsLeProp now) :=
  fun a b => inferInstanceAs (Decidable (jsCompare now a b ≤ 0))

/-- The reducer of line 122: keep `best` unless `current` is strictly faster. -/
def pickBetter (best current : DepartureOption) : DepartureOption :=
  if current.durationInTraffic < best.durationInTraffic then current else best

/-- The post-loop phase (lines 109-144): exhaustion errors when no option was
recorded, otherwise the `reduce` pick plus the comparator-sorted option list. -/
def buildResult (now : Nat) (res : LoopResult) : Except String OptimizationResult :=
  match res.options with
  | [] =>
    if 0 < res.apiCallErrors then
      Except.error (match res.lastError with
        | some m =>
          "Could not calculate valid departure times due to " ++
            toString res.apiCallErrors ++ " API errors. Last error: " ++ m
        | none =>
          "Could not calculate valid departure times due to " ++
            toString res.apiCallErrors ++
            " API errors. Please check your addresses and try again.")
    else
      Except.error "Could not calculate any valid departure times. Please check your addresses and try again."
  | o0 :: rest =>
    let optimalOption := (o0 :: rest).foldl pickBetter o0
    Except.ok {
      optimalDepartureTime := optimalOption.departureTime
      estimatedArrivalTime := optimalOption.arrivalTime
      durationInTraffic := optimalOption.durationInTraffic
      trafficCondition := optimalOption.trafficCondition
      distanceInMeters := optimalOption.distanceInMeters
      departureTimeOptions := List.insertionSort (jsLeProp now) (o0 :: rest) }

/--
`calculateOptimalDepartureTime` (src/lib/commute-service.ts, lines 9-150).
The origin/destination addresses are absorbed into the estimator oracle `est`;
`now` is the (fixed) clock of the invocation.  The check
`earliestDepartureDate.getTime() <= now.getTime() - 60000` is written over
`Int`, as in JS arithmetic.
-/
def calculateOptimalDepartureTime (est : Nat → Except String RouteInfo)
    (earliestDeparture latestArrival : String) (now : Nat) :
    Except String OptimizationResult :=
  match parseTimeToDate (some earliestDeparture) now with
  | none =>
    Except.error ("Invalid earliest departure time format: " ++ earliestDeparture ++
      ". Please use HH:MM.")
  | some earliestDepartureDate =>
    match parseTimeToDate (some latestArrival) now with
    | none =>
      Except.error ("Invalid latest arrival time format: " ++ latestArrival ++
        ". Please use HH:MM.")
    | some latestArrivalDate =>
      if latestArrivalDate ≤ earliestDepartureDate then
        Except.error "Latest arrival time must be after earliest departure time."
      else if (earliestDepartureDate : Int) ≤ (now : Int) - 60000 then
        Except.error "Earliest departure time must be in the future."
      else if timeWindowMinutes earliestDepartureDate latestArrivalDate < 15 then
        Except.error "The remaining time window until latest arrival is too short to calculate options."
      else
        buildResult now (runSampling est earliestDepartureDate latestArrivalDate)

/--
The traffic-condition classification of the routes API handler
(src/app/api/routes/route.ts, lines 110-144).  `none` models an absent
`travelAdvisory.speedReadingIntervals`; a present (possibly empty) array of
segment speed labels is `some`.  `slowRatio > 0.5` and `> 0.2` are the exact
cross-multiplied comparisons.
-/
def classifyTraffic (speedReadingIntervals : Option (List String)) : String :=
  match speedReadingIntervals with
  | none => "MODERATE"
  | some speedReadings =>
    if speedReadings.any (fun interval => interval = "TRAFFIC_JAM") then "SEVERE"
    else
      let slowSegments := (speedReadings.filter (fun interval => interval = "SLOW")).length
      let totalSegments := speedReadings.length
      if 0 < totalSegments then
        if totalSegments < 2 * slowSegments then "HEAVY"
        else if totalSegments < 5 * slowSegments then "MODERATE"
        else "LIGHT"
      else "MODERATE"

/--
Spec-side description of a well-formed "H:MM" / "HH:MM" string denoting the
wall-clock time `h:m` (hours 0-23, minutes 0-59; the hour may be written with
one digit when below ten, the minutes always take two digits).  Written from
the spec's words, for comparison with the code's parser.
-/
def validHHMM (s : String) (h m : Nat) : Prop :=
  h ≤ 23 ∧ m ≤ 59 ∧
    (s.data = [digitChar (h / 10), digitChar (h % 10), ':',
               digitChar (m / 10), digitChar (m % 10)] ∨
     (h ≤ 9 ∧ s.data = [digitChar h, ':', digitChar (m / 10), digitChar (m % 10)]))

instance (s : String) (h m : Nat) : Decidable (validHHMM s h m) := by
  unfold validHHMM; infer_instance

/-- The `departureTime`s of calls recorded by the loop: `current`, then every
15 minutes, while within `latest` and fuel remains. -/
def candList (latest : Nat) : Nat → Nat → List Nat
  | _, 0 => []
  | current, fuel + 1 =>
    if current ≤ latest then current :: candList latest (addMinutes current 15) fuel
    else []

/-- What one estimator call at instant `t` contributes to `options`. -/
def optionOfCall (est : Nat → Except String RouteInfo) (latest t : Nat) :
    Option DepartureOption :=
  match est t with
  | Except.ok routeInfo =>
    if t + routeInfo.durationInSeconds * 1000 ≤ latest then
      some (mkDepartureOption t routeInfo)
    else none
  | Except.error _ => none

/-- Whether the estimator call at `t` fails. -/
def isErrCall (est : Nat → Except String RouteInfo) (t : Nat) : Bool :=
  match est t with
  | Except.ok _ => false
  | Except.error _ => true

/-- The error message of the call at `t`, when it fails. -/
def errOfCall (est : Nat → Except String RouteInfo) (t : Nat) : Option String :=
  match est t with
  | Except.ok _ => none
  | Except.error e => some e

/-- The `trafficCondition` of a successful optimizer result. -/
def resultTrafficCondition : Except String OptimizationResult → Option String
  | Except.ok r => some r.trafficCondition
  | Except.error _ => none

/-- Concrete estimator: constant 25-minute drive, light traffic. -/
def estLight : Nat → Except String RouteInfo :=
  fun _ => Except.ok { durationInSeconds := 1500, distanceInMeters := 5000, trafficCondition := "LIGHT" }

/-- Concrete estimator: constant 25-minute drive, provider condition SEVERE. -/
def estSevere : Nat → Except String RouteInfo :=
  fun _ => Except.ok { durationInSeconds := 1500, distanceInMeters := 5000, trafficCondition := "SEVERE" }

/-- Concrete estimator: always fails. -/
def estFail : Nat → Except String RouteInfo :=
  fun _ => Except.error "boom"

/-- Concrete estimator: always succeeds but with a 2-hour drive. -/
def estSlow : Nat → Except String RouteInfo :=
  fun _ => Except.ok { durationInSeconds := 7200, distanceInMeters := 5000, trafficCondition := "HEAVY" }

/-- Concrete estimator: fails for the first two quarter-hour samples after
midnight, succeeds afterwards. -/
def estMixed : Nat → Except String RouteInfo :=
  fun t =>
    if t < 2700000 then Except.error "boom"
    else Except.ok { durationInSeconds := 1500, distanceInMeters := 5000, trafficCondition := "LIGHT" }

/-! ### Digit characters -/

lemma isDig_digitChar (d : Nat) (hd : d ≤ 9) : isDig (digitChar d) = true := by
  interval_cases d <;> decide

lemma charVal_digitChar (d : Nat) (hd : d ≤ 9) : charVal (digitChar d) = d := by
  interval_cases d <;> decide

lemma isDig_iff (c : Char) : isDig c = true ↔ 48 ≤ c.toNat ∧ c.toNat ≤ 57 := by
  simp [isDig]

lemma digitChar_charVal (c : Char) (hc : isDig c = true) :
    digitChar (charVal c) = c := by
  rw [isDig_iff] at hc
  have h48 : 48 + (charVal c) = c.toNat := by
    unfold charVal; omega
  unfold digitChar
  rw [h48, Char.ofNat_toNat]

lemma charVal_le_nine (c : Char) (hc : isDig c = true) : charVal c ≤ 9 := by
  rw [isDig_iff] at hc
  unfold charVal; omega

/-! ### `parseTimeToDate` facts -/

lemma parseTimeToDate_some (s : String) (now : Nat) :
    parseTimeToDate (some s) now =
      match parseHM s.data with
      | none => none
      | some (hours, minutes) =>
        if 23 < hours ∨ 59 < minutes then none
        else
          let date := now / dayMs * dayMs + hours * 3600000 + minutes * 60000
          if date < now then some (date + dayMs) else some date := rfl

lemma parseHM_four (d1 c d4 d5 : Char) :
    parseHM [d1, c, d4, d5] =
      if c = ':' ∧ isDig d1 ∧ isDig d4 ∧ isDig d5 then
        some (charVal d1, 10 * charVal d4 + charVal d5)
      else none := rfl

lemma parseHM_five (d1 d2 c d4 d5 : Char) :
    parseHM [d1, d2, c, d4, d5] =
      if c = ':' ∧ isDig d1 ∧ isDig d2 ∧ isDig d4 ∧ isDig d5 then
        some (10 * charVal d1 + charVal d2, 10 * charVal d4 + charVal d5)
      else none := rfl

lemma parseHM_nil : parseHM [] = none := rfl

lemma parseHM_one (c1 : Char) : parseHM [c1] = none := rfl

lemma parseHM_two (c1 c2 : Char) : parseHM [c1, c2] = none := rfl

lemma parseHM_three (c1 c2 c3 : Char) : parseHM [c1, c2, c3] = none := rfl

lemma parseHM_long (c1 c2 c3 c4 c5 c6 : Char) (rest : List Char) :
    parseHM (c1 :: c2 :: c3 :: c4 :: c5 :: c6 :: rest) = none := rfl

/-- A successful parse is never before `now`, is less than a day ahead of
`now`, and lands on a whole minute. -/
lemma parseTimeToDate_bounds (s : String) (now t : Nat)
    (h : parseTimeToDate (some s) now = some t) :
    now ≤ t ∧ t < now + dayMs ∧ t % 60000 = 0 := by
  rw [parseTimeToDate_some] at h
  cases hp : parseHM s.data with
  | none => rw [hp] at h; exact absurd h (by simp)
  | some hm =>
    obtain ⟨hours, minutes⟩ := hm
    rw [hp] at h
    simp only at h
    split at h
    · exact absurd h (by simp)
    · have hrange : hours ≤ 23 ∧ minutes ≤ 59 := by omega
      have hdm := Nat.div_add_mod now 86400000
      have hmod : now % 86400000 < 86400000 := Nat.mod_lt _ (by omega)
      split at h <;>
        · rw [Option.some_inj] at h
          unfold dayMs at *
          omega

/-- Parsing the rendered "HH:MM" of a whole-minute instant within a day of
`now` recovers the instant itself. -/
lemma parseTimeToDate_format (t now : Nat) (h1 : now ≤ t) (h2 : t < now + dayMs)
    (h3 : t % 60000 = 0) :
    parseTimeToDate (some (formatTimeForInput t)) now = some t := by
  have hhour : hourOf t ≤ 23 := by
    unfold hourOf dayMs
    have := Nat.mod_lt t (show 0 < 86400000 by omega)
    omega
  have hmin : minuteOf t ≤ 59 := by
    unfold minuteOf
    have := Nat.mod_lt t (show 0 < 3600000 by omega)
    omega
  have hdata : (formatTimeForInput t).data =
      [digitChar (hourOf t / 10), digitChar (hourOf t % 10), ':',
       digitChar (minuteOf t / 10), digitChar (minuteOf t % 10)] := rfl
  rw [parseTimeToDate_some, hdata, parseHM_five]
  rw [if_pos ⟨rfl,
        isDig_digitChar _ (by omega), isDig_digitChar _ (by omega),
        isDig_digitChar _ (by omega), isDig_digitChar _ (by omega)⟩]
  simp only [charVal_digitChar _ (show hourOf t / 10 ≤ 9 by omega),
    charVal_digitChar _ (show hourOf t % 10 ≤ 9 by omega),
    charVal_digitChar _ (show minuteOf t / 10 ≤ 9 by omega),
    charVal_digitChar _ (show minuteOf t % 10 ≤ 9 by omega)]
  have hh : 10 * (hourOf t / 10) + hourOf t % 10 = hourOf t := by omega
  have hm : 10 * (minuteOf t / 10) + minuteOf t % 10 = minuteOf t := by omega
  rw [hh, hm, if_neg (by omega)]
  -- arithmetic: reconstructing `t` from its hour and minute
  have hdmt := Nat.div_add_mod t 86400000
  have hdmn := Nat.div_add_mod now 86400000
  have hmt : t % 86400000 < 86400000 := Nat.mod_lt _ (by omega)
  have hmn : now % 86400000 < 86400000 := Nat.mod_lt _ (by omega)
  have hr1 := Nat.div_add_mod (t % 86400000) 3600000
  have hr2 : t % 86400000 % 3600000 = t % 3600000 :=
    Nat.mod_mod_of_dvd t (by norm_num)
  have hr3 := Nat.div_add_mod (t % 3600000) 60000
  have hr4 : t % 3600000 % 60000 = t % 60000 :=
    Nat.mod_mod_of_dvd t (by norm_num)
  unfold hourOf minuteOf dayMs at *
  split <;>
    · rw [Option.some_inj]
      omega

/-- A string the code parses successfully is a well-formed "H:MM"/"HH:MM"
string for the parsed hour and minute. -/
lemma validHHMM_of_parseHM (s : String) (hours minutes : Nat)
    (hp : parseHM s.data = some (hours, minutes))
    (hh : hours ≤ 23) (hm : minutes ≤ 59) :
    validHHMM s hours minutes := by
  unfold validHHMM
  rcases hl : s.data with _ | ⟨d1, _ | ⟨d2, _ | ⟨d3, _ | ⟨d4, _ | ⟨d5, _ | ⟨d6, rest⟩⟩⟩⟩⟩⟩
  · rw [hl, parseHM_nil] at hp; exact absurd hp (by simp)
  · rw [hl, parseHM_one] at hp; exact absurd hp (by simp)
  · rw [hl, parseHM_two] at hp; exact absurd hp (by simp)
  · rw [hl, parseHM_three] at hp; exact absurd hp (by simp)
  · rw [hl, parseHM_four] at hp
    split at hp
    · rename_i hcond
      obtain ⟨hc, h1, h4, h5⟩ := hcond
      rw [Option.some_inj, Prod.mk.injEq] at hp
      obtain ⟨hph, hpm⟩ := hp
      have c1 := charVal_le_nine d1 h1
      have c4 := charVal_le_nine d3 h4
      have c5 := charVal_le_nine d4 h5
      refine ⟨hh, hm, Or.inr ⟨by omega, ?_⟩⟩
      have e1 : digitChar hours = d1 := by rw [← hph]; exact digitChar_charVal d1 h1
      have e4 : digitChar (minutes / 10) = d3 := by
        have hq : minutes / 10 = charVal d3 := by omega
        rw [hq]; exact digitChar_charVal d3 h4
      have e5 : digitChar (minutes % 10) = d4 := by
        have hq : minutes % 10 = charVal d4 := by omega
        rw [hq]; exact digitChar_charVal d4 h5
      rw [e1, e4, e5, hc]
    · exact absurd hp (by simp)
  · rw [hl, parseHM_five] at hp
    split at hp
    · rename_i hcond
      obtain ⟨hc, h1, h2, h4, h5⟩ := hcond
      rw [Option.some_inj, Prod.mk.injEq] at hp
      obtain ⟨hph, hpm⟩ := hp
      have c1 := charVal_le_nine d1 h1
      have c2 := charVal_le_nine d2 h2
      have c4 := charVal_le_nine d4 h4
      have c5 := charVal_le_nine d5 h5
      refine ⟨hh, hm, Or.inl ?_⟩
      have e1 : digitChar (hours / 10) = d1 := by
        have hq : hours / 10 = charVal d1 := by omega
        rw [hq]; exact digitChar_charVal d1 h1
      have e2 : digitChar (hours % 10) = d2 := by
        have hq : hours % 10 = charVal d2 := by omega
        rw [hq]; exact digitChar_charVal d2 h2
      have e4 : digitChar (minutes / 10) = d4 := by
        have hq : minutes / 10 = charVal d4 := by omega
        rw [hq]; exact digitChar_charVal d4 h4
      have e5 : digitChar (minutes % 10) = d5 := by
        have hq : minutes % 10 = charVal d5 := by omega
        rw [hq]; exact digitChar_charVal d5 h5
      rw [e1, e2, e4, e5, hc]
    · exact absurd hp (by simp)
  · rw [hl, parseHM_long] at hp; exact absurd hp (by simp)

/-- A well-formed "H:MM"/"HH:MM" string parses to today-or-tomorrow at that
wall-clock time. -/
lemma parseTimeToDate_of_validHHMM (s : String) (h m now : Nat)
    (hv : validHHMM s h m) :
    ∃ t, parseTimeToDate (some s) now = some t ∧
      hourOf t = h ∧ minuteOf t = m ∧ now ≤ t := by
  obtain ⟨hh, hm, hshape⟩ := hv
  have hvals : parseHM s.data = some (h, m) := by
    rcases hshape with hs | ⟨h9, hs⟩
    · rw [hs, parseHM_five]
      rw [if_pos ⟨rfl,
            isDig_digitChar _ (by omega), isDig_digitChar _ (by omega),
            isDig_digitChar _ (by omega), isDig_digitChar _ (by omega)⟩]
      simp only [charVal_digitChar _ (show h / 10 ≤ 9 by omega),
        charVal_digitChar _ (show h % 10 ≤ 9 by omega),
        charVal_digitChar _ (show m / 10 ≤ 9 by omega),
        charVal_digitChar _ (show m % 10 ≤ 9 by omega)]
      rw [Option.some_inj, Prod.mk.injEq]
      omega
    · rw [hs, parseHM_four]
      rw [if_pos ⟨rfl,
            isDig_digitChar _ (by omega), isDig_digitChar _ (by omega),
            isDig_digitChar _ (by omega)⟩]
      simp only [charVal_digitChar _ h9,
        charVal_digitChar _ (show m / 10 ≤ 9 by omega),
        charVal_digitChar _ (show m % 10 ≤ 9 by omega)]
      rw [Option.some_inj, Prod.mk.injEq]
      omega
  rw [parseTimeToDate_some, hvals]
  simp only
  rw [if_neg (by omega)]
  have hdmn := Nat.div_add_mod now 86400000
  have hmn : now % 86400000 < 86400000 := Nat.mod_lt _ (by omega)
  set date := now / dayMs * dayMs + h * 3600000 + m * 60000 with hdate
  have hhour : hourOf date = h ∧ minuteOf date = m := by
    unfold hourOf minuteOf dayMs at *
    constructor <;> omega
  have hhour2 : hourOf (date + dayMs) = h ∧ minuteOf (date + dayMs) = m := by
    unfold hourOf minuteOf dayMs at *
    constructor <;> omega
  by_cases hlt : date < now
  · rw [if_pos hlt]
    exact ⟨date + dayMs, rfl, hhour2.1, hhour2.2, by unfold dayMs at *; omega⟩
  · rw [if_neg hlt]
    exact ⟨date, rfl, hhour.1, hhour.2, by omega⟩

/-! ### Sampling-loop characterization -/

lemma sampleLoop_calls (est : Nat → Except String RouteInfo) (latest : Nat) :
    ∀ (fuel current : Nat),
      (sampleLoop est latest current fuel).calls = candList latest current fuel := by
  intro fuel
  induction fuel with
  | zero => intro current; rfl
  | succ f ih =>
    intro current
    unfold sampleLoop candList
    by_cases hc : current ≤ latest
    · rw [if_pos hc, if_pos hc]
      cases hest : est current with
      | ok routeInfo =>
        dsimp only
        split <;> simp [ih]
      | error e => simp [ih]
    · rw [if_neg hc, if_neg hc]

lemma optionOfCall_ok (est : Nat → Except String RouteInfo) (latest t : Nat)
    (routeInfo : RouteInfo) (h : est t = Except.ok routeInfo) :
    optionOfCall est latest t =
      if t + routeInfo.durationInSeconds * 1000 ≤ latest then
        some (mkDepartureOption t routeInfo)
      else none := by
  unfold optionOfCall; rw [h]

lemma optionOfCall_err (est : Nat → Except String RouteInfo) (latest t : Nat)
    (e : String) (h : est t = Except.error e) : optionOfCall est latest t = none := by
  unfold optionOfCall; rw [h]

lemma sampleLoop_options (est : Nat → Except String RouteInfo) (latest : Nat) :
    ∀ (fuel current : Nat),
      (sampleLoop est latest current fuel).options =
        (candList latest current fuel).filterMap (optionOfCall est latest) := by
  intro fuel
  induction fuel with
  | zero => intro current; rfl
  | succ f ih =>
    intro current
    unfold sampleLoop candList
    by_cases hc : current ≤ latest
    · rw [if_pos hc, if_pos hc]
      cases hest : est current with
      | ok routeInfo =>
        dsimp only
        rw [List.filterMap_cons, optionOfCall_ok est latest current routeInfo hest]
        split <;> simp [ih]
      | error e =>
        rw [List.filterMap_cons, optionOfCall_err est latest current e hest]
        simp [ih]
    · rw [if_neg hc, if_neg hc]; rfl

lemma sampleLoop_errors (est : Nat → Except String RouteInfo) (latest : Nat) :
    ∀ (fuel current : Nat),
      (sampleLoop est latest current fuel).apiCallErrors =
        (candList latest current fuel).countP (isErrCall est) := by
  intro fuel
  induction fuel with
  | zero => intro current; rfl
  | succ f ih =>
    intro current
    unfold sampleLoop candList
    by_cases hc : current ≤ latest
    · rw [if_pos hc, if_pos hc]
      cases hest : est current with
      | ok routeInfo =>
        dsimp only
        rw [List.countP_cons]
        have hcall : isErrCall est current = false := by unfold isErrCall; rw [hest]
        split <;> simp [ih, hcall]
      | error e =>
        rw [List.countP_cons]
        have hcall : isErrCall est current = true := by unfold isErrCall; rw [hest]
        simp [ih, hcall]
    · rw [if_neg hc, if_neg hc]; rfl

lemma getLast?_cons_eq {α : Type} (a : α) (l : List α) :
    (a :: l).getLast? = match l.getLast? with
      | some m => some m
      | none => some a := by
  cases l with
  | nil => rfl
  | cons b t =>
    rw [List.getLast?_cons_cons]
    cases hl : (b :: t).getLast? with
    | none => exact absurd hl (by simp [List.getLast?_cons_cons, List.getLast?_isSome])
    | some m => rfl

lemma sampleLoop_lastError (est : Nat → Except String RouteInfo) (latest : Nat) :
    ∀ (fuel current : Nat),
      (sampleLoop est latest current fuel).lastError =
        ((candList latest current fuel).filterMap (errOfCall est)).getLast? := by
  intro fuel
  induction fuel with
  | zero => intro current; rfl
  | succ f ih =>
    intro current
    unfold sampleLoop candList
    by_cases hc : current ≤ latest
    · rw [if_pos hc, if_pos hc]
      cases hest : est current with
      | ok routeInfo =>
        dsimp only
        rw [List.filterMap_cons]
        have hcall : errOfCall est current = none := by unfold errOfCall; rw [hest]
        split <;> simp [ih, hcall]
      | error e =>
        rw [List.filterMap_cons]
        have hcall : errOfCall est current = some e := by unfold errOfCall; rw [hest]
        rw [hcall]
        dsimp only
        rw [getLast?_cons_eq, ih]
        cases (List.filterMap (errOfCall est) (candList latest (addMinutes current 15) f)).getLast? <;> rfl
    · rw [if_neg hc, if_neg hc]; rfl

lemma candList_zero (latest current : Nat) : candList latest current 0 = [] := rfl

lemma candList_succ (latest current fuel : Nat) :
    candList latest current (fuel + 1) =
      if current ≤ latest then current :: candList latest (addMinutes current 15) fuel
      else [] := rfl

/-! ### Candidate-list facts -/

lemma candList_length_le (latest : Nat) :
    ∀ (fuel current : Nat), (candList latest current fuel).length ≤ fuel := by
  intro fuel
  induction fuel with
  | zero => intro current; simp [candList]
  | succ f ih =>
    intro current
    rw [candList_succ]
    split
    · simpa using ih (addMinutes current 15)
    · simp

lemma candList_get? (latest : Nat) :
    ∀ (fuel current i t : Nat), (candList latest current fuel).get? i = some t →
      t = current + 900000 * i := by
  intro fuel
  induction fuel with
  | zero => intro current i t ht; simp [candList_zero] at ht
  | succ f ih =>
    intro current i t ht
    rw [candList_succ] at ht
    split at ht <;> rename_i hc
    · cases i with
      | zero =>
        rw [List.get?_cons_zero, Option.some_inj] at ht
        omega
      | succ j =>
        rw [List.get?_cons_succ] at ht
        have := ih (addMinutes current 15) j t ht
        unfold addMinutes at this
        omega
    · simp at ht

lemma candList_get (latest fuel current i : Nat)
    (hi : i < (candList latest current fuel).length) :
    (candList latest current fuel).get ⟨i, hi⟩ = current + 900000 * i :=
  candList_get? latest fuel current i _ (List.get?_eq_get hi)

lemma candList_mem (latest : Nat) :
    ∀ (fuel current t : Nat), t ∈ candList latest current fuel →
      current ≤ t ∧ t ≤ latest ∧ ∃ i, t = current + 900000 * i := by
  intro fuel
  induction fuel with
  | zero => intro current t ht; simp [candList] at ht
  | succ f ih =>
    intro current t ht
    rw [candList_succ] at ht
    split at ht <;> rename_i hc
    · rcases List.mem_cons.mp ht with rfl | ht
      · exact ⟨le_refl _, hc, 0, by ring⟩
      · obtain ⟨h1, h2, i, hi⟩ := ih (addMinutes current 15) t ht
        refine ⟨by unfold addMinutes at h1; omega, h2, i + 1, ?_⟩
        unfold addMinutes at hi
        omega
    · simp at ht

lemma candList_stop (latest : Nat) :
    ∀ (fuel current : Nat), (candList latest current fuel).length < fuel →
      latest < current + 900000 * (candList latest current fuel).length := by
  intro fuel
  induction fuel with
  | zero => intro current h; omega
  | succ f ih =>
    intro current h
    rw [candList_succ] at h ⊢
    by_cases hc : current ≤ latest
    · rw [if_pos hc] at h ⊢
      simp only [List.length_cons] at h ⊢
      have := ih (addMinutes current 15) (by omega)
      unfold addMinutes at this h ⊢
      omega
    · rw [if_neg hc] at h ⊢
      simp only [List.length_nil]
      omega

lemma candList_ne_nil (latest current fuel : Nat) (hc : current ≤ latest)
    (hf : 0 < fuel) : candList latest current fuel ≠ [] := by
  cases fuel with
  | zero => omega
  | succ f =>
    rw [candList_succ, if_pos hc]
    simp

lemma candList_pairwise (latest : Nat) :
    ∀ (fuel current : Nat), (candList latest current fuel).Pairwise (· < ·) := by
  intro fuel
  induction fuel with
  | zero => intro current; simp [candList]
  | succ f ih =>
    intro current
    rw [candList_succ]
    split <;> rename_i hc
    · refine List.Pairwise.cons ?_ (ih (addMinutes current 15))
      intro t ht
      have := (candList_mem latest f (addMinutes current 15) t ht).1
      unfold addMinutes at this
      omega
    · simp

lemma pairwise_depMs_filterMap (g : Nat → Option DepartureOption)
    (hg : ∀ t o, g t = some o → o.depMs = t) :
    ∀ (l : List Nat), l.Pairwise (· < ·) →
      (l.filterMap g).Pairwise (fun a b => a.depMs < b.depMs) := by
  intro l
  induction l with
  | nil => intro _; simp
  | cons t rest ih =>
    intro hp
    rw [List.pairwise_cons] at hp
    rw [List.filterMap_cons]
    cases hgt : g t with
    | none => exact ih hp.2
    | some o =>
      refine List.Pairwise.cons ?_ (ih hp.2)
      intro b hb
      obtain ⟨t', ht', hgt'⟩ := List.mem_filterMap.mp hb
      rw [hg t o hgt, hg t' b hgt']
      exact hp.1 t' ht'

/-- Inversion for membership in the recorded options. -/
lemma mem_options (est : Nat → Except String RouteInfo) (latest fuel current : Nat)
    (o : DepartureOption) (ho : o ∈ (sampleLoop est latest current fuel).options) :
    ∃ t, t ∈ candList latest current fuel ∧
      ∃ routeInfo, est t = Except.ok routeInfo ∧
        t + routeInfo.durationInSeconds * 1000 ≤ latest ∧
        o = mkDepartureOption t routeInfo := by
  rw [sampleLoop_options] at ho
  obtain ⟨t, ht, hgt⟩ := List.mem_filterMap.mp ho
  refine ⟨t, ht, ?_⟩
  cases hest : est t with
  | ok routeInfo =>
    rw [optionOfCall_ok est latest t routeInfo hest] at hgt
    split at hgt <;> rename_i harr
    · exact ⟨routeInfo, rfl, harr, (Option.some_inj.mp hgt).symm⟩
    · exact absurd hgt (by simp)
  | error e =>
    rw [optionOfCall_err est latest t e hest] at hgt
    exact absurd hgt (by simp)

lemma optionOfCall_depMs (est : Nat → Except String RouteInfo) (latest t : Nat)
    (o : DepartureOption) (h : optionOfCall est latest t = some o) : o.depMs = t := by
  cases hest : est t with
  | ok routeInfo =>
    rw [optionOfCall_ok est latest t routeInfo hest] at h
    split at h
    · rw [← Option.some_inj.mp h]; rfl
    · exact absurd h (by simp)
  | error e =>
    rw [optionOfCall_err est latest t e hest] at h
    exact absurd h (by simp)

lemma options_pairwise_depMs (est : Nat → Except String RouteInfo)
    (latest fuel current : Nat) :
    (sampleLoop est latest current fuel).options.Pairwise
      (fun a b => a.depMs < b.depMs) := by
  rw [sampleLoop_options]
  exact pairwise_depMs_filterMap _ (optionOfCall_depMs est latest)
    _ (candList_pairwise latest fuel current)

/-! ### Unfolding equations for `calculateOptimalDepartureTime` -/

lemma calc_earliest_invalid (est : Nat → Except String RouteInfo)
    (es ls : String) (now : Nat)
    (hE : parseTimeToDate (some es) now = none) :
    calculateOptimalDepartureTime est es ls now =
      Except.error ("Invalid earliest departure time format: " ++ es ++
        ". Please use HH:MM.") := by
  unfold calculateOptimalDepartureTime
  rw [hE]

lemma calc_latest_invalid (est : Nat → Except String RouteInfo)
    (es ls : String) (now E : Nat)
    (hE : parseTimeToDate (some es) now = some E)
    (hL : parseTimeToDate (some ls) now = none) :
    calculateOptimalDepartureTime est es ls now =
      Except.error ("Invalid latest arrival time format: " ++ ls ++
        ". Please use HH:MM.") := by
  unfold calculateOptimalDepartureTime
  rw [hE, hL]

lemma calc_parsed (est : Nat → Except String RouteInfo)
    (es ls : String) (now E L : Nat)
    (hE : parseTimeToDate (some es) now = some E)
    (hL : parseTimeToDate (some ls) now = some L) :
    calculateOptimalDepartureTime est es ls now =
      (if L ≤ E then
        Except.error "Latest arrival time must be after earliest departure time."
      else if (E : Int) ≤ (now : Int) - 60000 then
        Except.error "Earliest departure time must be in the future."
      else if timeWindowMinutes E L < 15 then
        Except.error "The remaining time window until latest arrival is too short to calculate options."
      else buildResult now (runSampling est E L)) := by
  unfold calculateOptimalDepartureTime
  rw [hE, hL]

/-- The "in the past" guard can never fire on a parsed time. -/
lemma not_past_guard (s : String) (now t : Nat)
    (h : parseTimeToDate (some s) now = some t) :
    ¬((t : Int) ≤ (now : Int) - 60000) := by
  have := (parseTimeToDate_bounds s now t h).1
  omega

lemma calc_valid (est : Nat → Except String RouteInfo)
    (es ls : String) (now E L : Nat)
    (hE : parseTimeToDate (some es) now = some E)
    (hL : parseTimeToDate (some ls) now = some L)
    (hlt : E < L) (hW : 15 ≤ timeWindowMinutes E L) :
    calculateOptimalDepartureTime est es ls now =
      buildResult now (runSampling est E L) := by
  rw [calc_parsed est es ls now E L hE hL,
    if_neg (by omega), if_neg (not_past_guard es now E hE), if_neg (by omega)]

lemma buildResult_nil (now : Nat) (res : LoopResult) (h : res.options = []) :
    buildResult now res =
      (if 0 < res.apiCallErrors then
        Except.error (match res.lastError with
          | some m =>
            "Could not calculate valid departure times due to " ++
              toString res.apiCallErrors ++ " API errors. Last error: " ++ m
          | none =>
            "Could not calculate valid departure times due to " ++
              toString res.apiCallErrors ++
              " API errors. Please check your addresses and try again.")
      else
        Except.error "Could not calculate any valid departure times. Please check your addresses and try again.") := by
  unfold buildResult
  rw [h]

lemma buildResult_cons (now : Nat) (res : LoopResult) (o0 : DepartureOption)
    (rest : List DepartureOption) (h : res.options = o0 :: rest) :
    buildResult now res = Except.ok {
      optimalDepartureTime := ((o0 :: rest).foldl pickBetter o0).departureTime
      estimatedArrivalTime := ((o0 :: rest).foldl pickBetter o0).arrivalTime
      durationInTraffic := ((o0 :: rest).foldl pickBetter o0).durationInTraffic
      trafficCondition := ((o0 :: rest).foldl pickBetter o0).trafficCondition
      distanceInMeters := ((o0 :: rest).foldl pickBetter o0).distanceInMeters
      departureTimeOptions := List.insertionSort (jsLeProp now) (o0 :: rest) } := by
  unfold buildResult
  rw [h]

/-! ### The `reduce` pick -/

lemma foldl_pickBetter_dur_le (l : List DepartureOption) (a : DepartureOption) :
    (l.foldl pickBetter a).durationInTraffic ≤ a.durationInTraffic := by
  induction l generalizing a with
  | nil => simp
  | cons b t ih =>
    rw [List.foldl_cons]
    refine le_trans (ih (pickBetter a b)) ?_
    unfold pickBetter
    split <;> omega

/-- The fold of `pickBetter` lands on the first element of minimal
`durationInTraffic`: everything before it is strictly slower, everything
after it no faster. -/
lemma foldl_pickBetter_split :
    ∀ (l : List DepartureOption) (a : DepartureOption),
      ∃ l₁ l₂, a :: l = l₁ ++ (l.foldl pickBetter a) :: l₂ ∧
        (∀ x ∈ l₁, (l.foldl pickBetter a).durationInTraffic < x.durationInTraffic) ∧
        (∀ x ∈ l₂, (l.foldl pickBetter a).durationInTraffic ≤ x.durationInTraffic) := by
  intro l
  induction l with
  | nil => intro a; exact ⟨[], [], rfl, by simp, by simp⟩
  | cons b t ih =>
    intro a
    rw [List.foldl_cons]
    by_cases hb : b.durationInTraffic < a.durationInTraffic
    · rw [show pickBetter a b = b from if_pos hb]
      obtain ⟨l₁, l₂, heq, h₁, h₂⟩ := ih b
      refine ⟨a :: l₁, l₂, by rw [List.cons_append, ← heq], ?_, h₂⟩
      intro x hx
      rcases List.mem_cons.mp hx with rfl | hx
      · exact lt_of_le_of_lt (foldl_pickBetter_dur_le t b) hb
      · exact h₁ x hx
    · rw [show pickBetter a b = a from if_neg hb]
      obtain ⟨l₁, l₂, heq, h₁, h₂⟩ := ih a
      push_neg at hb
      cases l₁ with
      | nil =>
        rw [List.nil_append] at heq
        obtain ⟨hfa, hl₂⟩ := (List.cons.injEq _ _ _ _).mp heq
        refine ⟨[], b :: t, by rw [List.nil_append, ← hfa], by simp, ?_⟩
        intro x hx
        rcases List.mem_cons.mp hx with rfl | hx
        · rw [← hfa]; exact hb
        · exact h₂ x (hl₂ ▸ hx)
      | cons y l₁' =>
        rw [List.cons_append] at heq
        obtain ⟨hya, ht⟩ := (List.cons.injEq _ _ _ _).mp heq
        have hfy : (t.foldl pickBetter a).durationInTraffic < y.durationInTraffic :=
          h₁ y (by simp)
        have hyd : y.durationInTraffic = a.durationInTraffic := by rw [hya]
        refine ⟨a :: b :: l₁', l₂, ?_, ?_, h₂⟩
        · rw [List.cons_append, List.cons_append]
          conv_lhs => rw [ht]
        · intro x hx
          rcases List.mem_cons.mp hx with rfl | hx
          · exact hyd ▸ hfy
          · rcases List.mem_cons.mp hx with rfl | hx
            · exact lt_of_lt_of_le (hyd ▸ hfy) hb
            · exact h₁ x (List.mem_cons_of_mem y hx)

/-! ### Comparator facts -/

lemma jsCompare_both_none (now : Nat) (a b : DepartureOption)
    (ha : parseTimeToDate (some a.departureTime) now = none)
    (hb : parseTimeToDate (some b.departureTime) now = none) :
    jsCompare now a b = 0 := by
  unfold jsCompare; rw [ha, hb]

lemma jsCompare_none_some (now : Nat) (a b : DepartureOption) (tb : Nat)
    (ha : parseTimeToDate (some a.departureTime) now = none)
    (hb : parseTimeToDate (some b.departureTime) now = some tb) :
    jsCompare now a b = 1 := by
  unfold jsCompare; rw [ha, hb]

lemma jsCompare_some_none (now : Nat) (a b : DepartureOption) (ta : Nat)
    (ha : parseTimeToDate (some a.departureTime) now = some ta)
    (hb : parseTimeToDate (some b.departureTime) now = none) :
    jsCompare now a b = -1 := by
  unfold jsCompare; rw [ha, hb]

lemma jsCompare_some_some (now : Nat) (a b : DepartureOption) (ta tb : Nat)
    (ha : parseTimeToDate (some a.departureTime) now = some ta)
    (hb : parseTimeToDate (some b.departureTime) now = some tb) :
    jsCompare now a b = (ta : Int) - (tb : Int) := by
  unfold jsCompare; rw [ha, hb]

lemma jsLeProp_total (now : Nat) : ∀ a b : DepartureOption,
    jsLeProp now a b ∨ jsLeProp now b a := by
  intro a b
  unfold jsLeProp
  cases ha : parseTimeToDate (some a.departureTime) now <;>
    cases hb : parseTimeToDate (some b.departureTime) now
  · rw [jsCompare_both_none now a b ha hb, jsCompare_both_none now b a hb ha]; omega
  · rename_i tb
    rw [jsCompare_none_some now a b tb ha hb, jsCompare_some_none now b a tb hb ha]
    omega
  · rename_i ta
    rw [jsCompare_some_none now a b ta ha hb, jsCompare_none_some now b a ta hb ha]
    omega
  · rename_i ta tb
    rw [jsCompare_some_some now a b ta tb ha hb, jsCompare_some_some now b a tb ta hb ha]
    omega

lemma jsLeProp_trans (now : Nat) : ∀ a b c : DepartureOption,
    jsLeProp now a b → jsLeProp now b c → jsLeProp now a c := by
  intro a b c
  unfold jsLeProp
  rcases ha : parseTimeToDate (some a.departureTime) now with _ | ta <;>
    rcases hb : parseTimeToDate (some b.departureTime) now with _ | tb <;>
      rcases hc : parseTimeToDate (some c.departureTime) now with _ | tc <;>
        intro h1 h2
  · rw [jsCompare_both_none now a c ha hc]
  · rw [jsCompare_none_some now b c tc hb hc] at h2; omega
  · rw [jsCompare_both_none now a c ha hc]
  · rw [jsCompare_none_some now a b tb ha hb] at h1; omega
  · rw [jsCompare_some_none now a c ta ha hc]; omega
  · rw [jsCompare_none_some now b c tc hb hc] at h2; omega
  · rw [jsCompare_some_none now a c ta ha hc]; omega
  · rw [jsCompare_some_some now a b ta tb ha hb] at h1
    rw [jsCompare_some_some now b c tb tc hb hc] at h2
    rw [jsCompare_some_some now a c ta tc ha hc]
    omega

/-! ### String-disequality helpers -/

lemma take_append_of_le {α : Type} (l1 l2 : List α) (n : Nat)
    (h : n ≤ l1.length) : (l1 ++ l2).take n = l1.take n := by
  rw [List.take_append_eq_append_take, Nat.sub_eq_zero_of_le h,
    List.take_zero, List.append_nil]

lemma take_data_append (p q : String) (n : Nat) (h : n ≤ p.data.length) :
    (p ++ q).data.take n = p.data.take n := by
  rw [String.data_append]
  exact take_append_of_le p.data q.data n h

lemma string_ne_of_take (a t : String) (n : Nat)
    (h : a.data.take n ≠ t.data.take n) : a ≠ t := by
  intro he
  exact h (by rw [he])

/-! ### Further inversion lemmas -/

lemma take_data_append2 (p q r : String) (n : Nat) (h : n ≤ p.data.length) :
    ((p ++ q) ++ r).data.take n = p.data.take n := by
  have h1 : n ≤ (p ++ q).data.length := by
    rw [String.data_append, List.length_append]; omega
  rw [take_data_append _ r n h1, take_data_append p q n h]

lemma take_data_append3 (p q r s : String) (n : Nat) (h : n ≤ p.data.length) :
    (((p ++ q) ++ r) ++ s).data.take n = p.data.take n := by
  have h1 : n ≤ ((p ++ q) ++ r).data.length := by
    rw [String.data_append, String.data_append, List.length_append,
      List.length_append]
    omega
  rw [take_data_append _ s n h1, take_data_append2 p q r n h]

lemma mapTrafficCondition_range (s : String) :
    mapTrafficCondition s = "Light" ∨ mapTrafficCondition s = "Moderate" ∨
      mapTrafficCondition s = "Heavy" ∨ mapTrafficCondition s = "Very Heavy" := by
  unfold mapTrafficCondition
  split_ifs <;> simp

lemma mapTrafficCondition_default (s : String)
    (h1 : s ≠ "LIGHT") (h2 : s ≠ "MODERATE") (h3 : s ≠ "HEAVY")
    (h4 : s ≠ "SEVERE") (h5 : s ≠ "TRAFFIC_JAM") :
    mapTrafficCondition s = "Moderate" := by
  unfold mapTrafficCondition
  rw [if_neg h1, if_neg h2, if_neg h3, if_neg h4, if_neg h5]

lemma classifyTraffic_none : classifyTraffic none = "MODERATE" := rfl

lemma classifyTraffic_some (speedReadings : List String) :
    classifyTraffic (some speedReadings) =
      if speedReadings.any (fun interval => interval = "TRAFFIC_JAM") then "SEVERE"
      else
        if 0 < speedReadings.length then
          if speedReadings.length <
              2 * (speedReadings.filter (fun interval => interval = "SLOW")).length
            then "HEAVY"
          else if speedReadings.length <
              5 * (speedReadings.filter (fun interval => interval = "SLOW")).length
            then "MODERATE"
          else "LIGHT"
        else "MODERATE" := rfl

/-- Every successful result comes from a non-empty recorded option list via
the `reduce` pick and the comparator sort. -/
lemma calc_ok_inv (est : Nat → Except String RouteInfo) (es ls : String)
    (now : Nat) (r : OptimizationResult)
    (h : calculateOptimalDepartureTime est es ls now = Except.ok r) :
    ∃ E L, parseTimeToDate (some es) now = some E ∧
      parseTimeToDate (some ls) now = some L ∧ E < L ∧
      15 ≤ timeWindowMinutes E L ∧
      ∃ o0 rest, (runSampling est E L).options = o0 :: rest ∧
        r = { optimalDepartureTime := ((o0 :: rest).foldl pickBetter o0).departureTime
              estimatedArrivalTime := ((o0 :: rest).foldl pickBetter o0).arrivalTime
              durationInTraffic := ((o0 :: rest).foldl pickBetter o0).durationInTraffic
              trafficCondition := ((o0 :: rest).foldl pickBetter o0).trafficCondition
              distanceInMeters := ((o0 :: rest).foldl pickBetter o0).distanceInMeters
              departureTimeOptions :=
                List.insertionSort (jsLeProp now) (o0 :: rest) } := by
  cases hE : parseTimeToDate (some es) now with
  | none =>
    rw [calc_earliest_invalid est es ls now hE] at h
    exact absurd h (by simp)
  | some E =>
    cases hL : parseTimeToDate (some ls) now with
    | none =>
      rw [calc_latest_invalid est es ls now E hE hL] at h
      exact absurd h (by simp)
    | some L =>
      rw [calc_parsed est es ls now E L hE hL] at h
      split at h
      · exact absurd h (by simp)
      · split at h
        · exact absurd h (by simp)
        · split at h
          · exact absurd h (by simp)
          · rename_i hLE _ hW
            refine ⟨E, L, rfl, rfl, by omega, by omega, ?_⟩
            cases hopt : (runSampling est E L).options with
            | nil =>
              rw [buildResult_nil now _ hopt] at h
              split at h <;> exact absurd h (by simp)
            | cons o0 rest =>
              rw [buildResult_cons now _ o0 rest hopt] at h
              exact ⟨o0, rest, rfl, (Except.ok.inj h).symm⟩

/-- Folding from the head over the full list (the source's
`reduce(f, opts[0])` over `opts`) equals folding over the tail. -/
lemma foldl_pickBetter_cons_self (o0 : DepartureOption)
    (rest : List DepartureOption) :
    (o0 :: rest).foldl pickBetter o0 = rest.foldl pickBetter o0 := by
  rw [List.foldl_cons, show pickBetter o0 o0 = o0 from if_neg (lt_irrefl _)]

/-- Recorded options re-parse to their recording instant. -/
lemma mem_options_parse (est : Nat → Except String RouteInfo) (es ls : String)
    (now E L : Nat)
    (hE : parseTimeToDate (some es) now = some E)
    (hL : parseTimeToDate (some ls) now = some L)
    (o : DepartureOption) (ho : o ∈ (runSampling est E L).options) :
    parseTimeToDate (some o.departureTime) now = some o.depMs ∧
      E ≤ o.depMs ∧ o.depMs ≤ L := by
  obtain ⟨t, ht, routeInfo, hest, harr, heq⟩ :=
    mem_options est L (maxApiCalls E L) E o ho
  obtain ⟨htE, htL, i, hi⟩ := candList_mem L (maxApiCalls E L) E t ht
  obtain ⟨hEnow, _, hE60⟩ := parseTimeToDate_bounds es now E hE
  obtain ⟨hLnow, hLday, _⟩ := parseTimeToDate_bounds ls now L hL
  have hdep : o.depMs = t := by rw [heq]; rfl
  have hfmt : o.departureTime = formatTimeForInput t := by rw [heq]; rfl
  refine ⟨?_, by omega, by omega⟩
  rw [hfmt, hdep]
  exact parseTimeToDate_format t now (by omega) (by unfold dayMs at *; omega)
    (by omega)

/-- The result of running the optimizer with `estLight` between 00:15 and
01:15 with the clock at midnight. -/
def resultLight : OptimizationResult :=
  { optimalDepartureTime := "00:15"
    estimatedArrivalTime := "00:40"
    durationInTraffic := 1500
    trafficCondition := "Light"
    distanceInMeters := 5000
    departureTimeOptions := [
      { departureTime := "00:15", arrivalTime := "00:40", durationInTraffic := 1500,
        trafficCondition := "Light", distanceInMeters := 5000,
        depMs := 900000, arrMs := 2400000 },
      { departureTime := "00:30", arrivalTime := "00:55", durationInTraffic := 1500,
        trafficCondition := "Light", distanceInMeters := 5000,
        depMs := 1800000, arrMs := 3300000 },
      { departureTime := "00:45", arrivalTime := "01:10", durationInTraffic := 1500,
        trafficCondition := "Light", distanceInMeters := 5000,
        depMs := 2700000, arrMs := 4200000 }] }

/-!  ## Claim theorems -/

/--
C1: whenever `calculateOptimalDepartureTime` returns normally, the returned
optimal fields are those of a recorded `DepartureOption` whose
`durationInTraffic` is minimal among all recorded options, and among options
of equal minimal duration the first one recorded by the loop — equivalently
the one with the earliest departure instant — is chosen (everything recorded
before the pick is strictly slower, everything after no faster).
-/
theorem c1_optimal_is_first_minimum (est : Nat → Except String RouteInfo)
    (es ls : String) (now : Nat) (r : OptimizationResult)
    (h : calculateOptimalDepartureTime est es ls now = Except.ok r) :
    ∃ E L, parseTimeToDate (some es) now = some E ∧
      parseTimeToDate (some ls) now = some L ∧
      ∃ l₁ o l₂, (runSampling est E L).options = l₁ ++ o :: l₂ ∧
        r.optimalDepartureTime = o.departureTime ∧
        r.estimatedArrivalTime = o.arrivalTime ∧
        r.durationInTraffic = o.durationInTraffic ∧
        r.trafficCondition = o.trafficCondition ∧
        r.distanceInMeters = o.distanceInMeters ∧
        (∀ x ∈ l₁, o.durationInTraffic < x.durationInTraffic) ∧
        (∀ x ∈ l₂, o.durationInTraffic ≤ x.durationInTraffic) ∧
        (∀ x ∈ (runSampling est E L).options,
          x.durationInTraffic = o.durationInTraffic → o.depMs ≤ x.depMs) := by
  obtain ⟨E, L, hE, hL, hlt, hW, o0, rest, hopt, hr⟩ := calc_ok_inv est es ls now r h
  subst hr
  obtain ⟨l₁, l₂, heq, h₁, h₂⟩ := foldl_pickBetter_split rest o0
  have hfold := foldl_pickBetter_cons_self o0 rest
  have hpw : ((runSampling est E L).options).Pairwise
      (fun a b => a.depMs < b.depMs) :=
    options_pairwise_depMs est L (maxApiCalls E L) E
  refine ⟨E, L, hE, hL, l₁, rest.foldl pickBetter o0, l₂, ?_, by simp [hfold],
    by simp [hfold], by simp [hfold], by simp [hfold], by simp [hfold],
    h₁, h₂, ?_⟩
  · rw [hopt, heq]
  · intro x hx hdur
    rw [hopt, heq] at hx hpw
    rcases List.mem_append.mp hx with hx1 | hx2
    · exact absurd hdur (by have := h₁ x hx1; omega)
    · rcases List.mem_cons.mp hx2 with rfl | hx2
      · exact le_refl _
      · have hfl := (List.pairwise_append.mp hpw).2.1
        have := (List.pairwise_cons.mp hfl).1 x hx2
        omega

theorem c1_witness : (runSampling estLight 900000 4500000).options ≠ [] := by
  obtain ⟨E, L, hE, hL, l₁, o, l₂, hsplit, -⟩ :=
    c1_optimal_is_first_minimum estLight "00:15" "01:15" 0 resultLight (by decide)
  have hp : parseTimeToDate (some "00:15") 0 = some 900000 := by decide
  have hq : parseTimeToDate (some "01:15") 0 = some 4500000 := by decide
  rw [hp] at hE
  rw [hq] at hL
  obtain rfl : E = 900000 := (Option.some_inj.mp hE).symm
  obtain rfl : L = 4500000 := (Option.some_inj.mp hL).symm
  rw [hsplit]
  simp

/--
C2: for every input passing validation with a computed window of `W` minutes,
the sampling phase calls the estimator at most `min(⌈W/15⌉, 12)` times, the
`i`-th call departing at `effectiveStart + 15·i` minutes (`900000·i` ms), every
called candidate is within the latest-arrival instant, and if the loop ran
fewer than `maxApiCalls` iterations it is because the next candidate would
exceed the latest arrival.
-/
theorem c2_call_budget_and_cadence (est : Nat → Except String RouteInfo)
    (es ls : String) (now E L : Nat)
    (hE : parseTimeToDate (some es) now = some E)
    (hL : parseTimeToDate (some ls) now = some L)
    (hlt : E < L) (hW : 15 ≤ timeWindowMinutes E L) :
    (runSampling est E L).calls.length ≤
      min ((timeWindowMinutes E L + 14) / 15) 12 ∧
    (∀ i t : Nat, (runSampling est E L).calls.get? i = some t →
      t = E + 900000 * i) ∧
    (∀ t ∈ (runSampling est E L).calls, t ≤ L) ∧
    ((runSampling est E L).calls.length < maxApiCalls E L →
      L < E + 900000 * (runSampling est E L).calls.length) := by
  have hcalls : (runSampling est E L).calls = candList L E (maxApiCalls E L) :=
    sampleLoop_calls est L (maxApiCalls E L) E
  refine ⟨?_, ?_, ?_, ?_⟩
  · rw [hcalls]
    exact candList_length_le L (maxApiCalls E L) E
  · intro i t ht
    rw [hcalls] at ht
    exact candList_get? L (maxApiCalls E L) E i t ht
  · intro t ht
    rw [hcalls] at ht
    exact (candList_mem L (maxApiCalls E L) E t ht).2.1
  · intro hlen
    rw [hcalls] at hlen ⊢
    exact candList_stop L (maxApiCalls E L) E hlen

theorem c2_witness : (runSampling estLight 900000 4500000).calls.length ≤ 4 := by
  have h := c2_call_budget_and_cadence estLight "00:15" "01:15" 0 900000 4500000
    (by decide) (by decide) (by decide) (by decide)
  exact h.1.trans (by decide)

/--
C6: `parseTimeToDate` is total.  A `null`/`undefined` input yields the invalid
marker `none`; every string that is a well-formed "H:MM"/"HH:MM" time (hours
0-23, minutes 0-59) parses to an instant with exactly that hour and minute
which is not strictly before `now`; every other string yields `none`.
-/
theorem c6_parse_total_and_faithful (now : Nat) :
    parseTimeToDate none now = none ∧
    (∀ (s : String) (h m : Nat), validHHMM s h m →
      ∃ t, parseTimeToDate (some s) now = some t ∧
        hourOf t = h ∧ minuteOf t = m ∧ now ≤ t) ∧
    (∀ s : String, (∀ h m, ¬ validHHMM s h m) →
      parseTimeToDate (some s) now = none) := by
  refine ⟨rfl, fun s h m hv => parseTimeToDate_of_validHHMM s h m now hv, ?_⟩
  intro s hbad
  cases hp : parseHM s.data with
  | none => rw [parseTimeToDate_some, hp]
  | some hm0 =>
    obtain ⟨hh, mm⟩ := hm0
    by_cases hr : 23 < hh ∨ 59 < mm
    · rw [parseTimeToDate_some, hp]
      simp only
      rw [if_pos hr]
    · exact absurd (validHHMM_of_parseHM s hh mm hp (by omega) (by omega))
        (hbad hh mm)

theorem c6_witness :
    parseTimeToDate none 0 = none ∧ parseTimeToDate (some "") 0 = none := by
  have h := c6_parse_total_and_faithful 0
  refine ⟨h.1, h.2.2 "" ?_⟩
  rintro hh mm ⟨-, -, hs | ⟨-, hs⟩⟩ <;> simpa using hs

/--
C10 (implicit): with the clock fixed during one invocation, the
"Earliest departure time must be in the future." branch is unreachable: a
parsed time is never strictly before `now`, so it can never be more than 60
seconds in the past, and `calculateOptimalDepartureTime` never returns that
error for a parseable earliest-departure string (a user entering a
passed time-of-day gets tomorrow's instant instead).
-/
theorem c10_past_branch_unreachable (s : String) (now t : Nat)
    (h : parseTimeToDate (some s) now = some t) :
    now ≤ t ∧ ¬((t : Int) ≤ (now : Int) - 60000) ∧
    (∀ (est : Nat → Except String RouteInfo) (ls : String),
      calculateOptimalDepartureTime est s ls now ≠
        Except.error "Earliest departure time must be in the future.") := by
  refine ⟨(parseTimeToDate_bounds s now t h).1, not_past_guard s now t h, ?_⟩
  intro est ls hcontra
  cases hL : parseTimeToDate (some ls) now with
  | none =>
    rw [calc_latest_invalid est s ls now t h hL] at hcontra
    simp only [Except.error.injEq] at hcontra
    exact string_ne_of_take _ _ 1
      (by rw [take_data_append2 _ _ _ 1 (by decide)]; decide) hcontra
  | some L =>
    rw [calc_parsed est s ls now t L h hL] at hcontra
    split at hcontra
    · exact absurd hcontra (by decide)
    · split at hcontra
      · rename_i hpast
        exact absurd hpast (not_past_guard s now t h)
      · split at hcontra
        · exact absurd hcontra (by decide)
        · cases hopt : (runSampling est t L).options with
          | cons o0 rest =>
            rw [buildResult_cons now _ o0 rest hopt] at hcontra
            exact absurd hcontra (by simp)
          | nil =>
            rw [buildResult_nil now _ hopt] at hcontra
            split at hcontra
            · cases hl : (runSampling est t L).lastError with
              | some m =>
                rw [hl] at hcontra
                simp only [Except.error.injEq] at hcontra
                exact string_ne_of_take _ _ 1
                  (by rw [take_data_append3 _ _ _ _ 1 (by decide)]; decide)
                  hcontra
              | none =>
                rw [hl] at hcontra
                simp only [Except.error.injEq] at hcontra
                exact string_ne_of_take _ _ 1
                  (by rw [take_data_append2 _ _ _ 1 (by decide)]; decide)
                  hcontra
            · exact absurd hcontra (by decide)

theorem c10_witness : ¬((900000 : Int) ≤ (0 : Int) - 60000) := by
  have h := c10_past_branch_unreachable "00:15" 0 900000 (by decide)
  exact h.2.1

/--
C3: when the loop records zero options, the optimizer rejects, distinguishing
the two exhaustion cases: if every estimator call failed, the error message
carries the failure count and the last underlying error message; if every
call succeeded (so every arrival was too late), the distinct fixed
"no valid options" message — which never coincides with any aggregate
message — is used, with no underlying error attached.
-/
theorem c3_exhaustion_error_cases (est : Nat → Except String RouteInfo)
    (es ls : String) (now E L : Nat)
    (hE : parseTimeToDate (some es) now = some E)
    (hL : parseTimeToDate (some ls) now = some L)
    (hlt : E < L) (hW : 15 ≤ timeWindowMinutes E L)
    (hempty : (runSampling est E L).options = []) :
    ((∀ t ∈ (runSampling est E L).calls, ∃ e, est t = Except.error e) →
      ∃ m, (runSampling est E L).lastError = some m ∧
        0 < (runSampling est E L).apiCallErrors ∧
        calculateOptimalDepartureTime est es ls now = Except.error
          ("Could not calculate valid departure times due to " ++
            toString (runSampling est E L).apiCallErrors ++
            " API errors. Last error: " ++ m)) ∧
    ((∀ t ∈ (runSampling est E L).calls, ∃ routeInfo, est t = Except.ok routeInfo) →
      (runSampling est E L).apiCallErrors = 0 ∧
      calculateOptimalDepartureTime est es ls now = Except.error
        "Could not calculate any valid departure times. Please check your addresses and try again.") ∧
    (∀ k m : String,
      ("Could not calculate valid departure times due to " ++ k ++
        " API errors. Last error: " ++ m) ≠
      "Could not calculate any valid departure times. Please check your addresses and try again.") := by
  have hcalls : (runSampling est E L).calls = candList L E (maxApiCalls E L) :=
    sampleLoop_calls est L (maxApiCalls E L) E
  have herr : (runSampling est E L).apiCallErrors =
      (candList L E (maxApiCalls E L)).countP (isErrCall est) :=
    sampleLoop_errors est L (maxApiCalls E L) E
  have hlast : (runSampling est E L).lastError =
      ((candList L E (maxApiCalls E L)).filterMap (errOfCall est)).getLast? :=
    sampleLoop_lastError est L (maxApiCalls E L) E
  have hcne : candList L E (maxApiCalls E L) ≠ [] :=
    candList_ne_nil L E (maxApiCalls E L) (le_of_lt hlt)
      (by unfold maxApiCalls; omega)
  refine ⟨?_, ?_, ?_⟩
  · intro hfail
    have hall : ∀ t ∈ candList L E (maxApiCalls E L), isErrCall est t = true := by
      intro t ht
      obtain ⟨e, he⟩ := hfail t (by rw [hcalls]; exact ht)
      unfold isErrCall
      rw [he]
    have herrlen : (runSampling est E L).apiCallErrors =
        (candList L E (maxApiCalls E L)).length := by
      rw [herr]
      exact List.countP_eq_length.mpr hall
    have hpos : 0 < (runSampling est E L).apiCallErrors := by
      rw [herrlen]
      exact List.length_pos.mpr hcne
    obtain ⟨t0, ht0⟩ := List.exists_mem_of_ne_nil _ hcne
    obtain ⟨e0, he0⟩ := hfail t0 (by rw [hcalls]; exact ht0)
    have hmem : e0 ∈ (candList L E (maxApiCalls E L)).filterMap (errOfCall est) :=
      List.mem_filterMap.mpr ⟨t0, ht0, by unfold errOfCall; rw [he0]⟩
    obtain ⟨m, hm⟩ := Option.isSome_iff_exists.mp
      (List.getLast?_isSome.mpr (List.ne_nil_of_mem hmem))
    have hlm : (runSampling est E L).lastError = some m := by rw [hlast]; exact hm
    refine ⟨m, hlm, hpos, ?_⟩
    rw [calc_valid est es ls now E L hE hL hlt hW, buildResult_nil now _ hempty,
      if_pos hpos, hlm]
  · intro hok
    have hz : (runSampling est E L).apiCallErrors = 0 := by
      rw [herr]
      refine List.countP_eq_zero.mpr ?_
      intro t ht
      obtain ⟨routeInfo, hri⟩ := hok t (by rw [hcalls]; exact ht)
      unfold isErrCall
      rw [hri]
      simp
    refine ⟨hz, ?_⟩
    rw [calc_valid est es ls now E L hE hL hlt hW, buildResult_nil now _ hempty,
      if_neg (by omega)]
  · intro k m
    exact string_ne_of_take _ _ 21
      (by rw [take_data_append3 _ _ _ _ 21 (by decide)]; decide)

theorem c3_witness :
    calculateOptimalDepartureTime estFail "00:15" "01:15" 0 = Except.error
      "Could not calculate valid departure times due to 4 API errors. Last error: boom" := by
  obtain ⟨m, hm, hpos, hcalc⟩ :=
    (c3_exhaustion_error_cases estFail "00:15" "01:15" 0 900000 4500000
      (by decide) (by decide) (by decide) (by decide) (by decide)).1
      (fun t _ => ⟨"boom", rfl⟩)
  have hm' : (runSampling estFail 900000 4500000).lastError = some "boom" := by decide
  rw [hm'] at hm
  obtain rfl : m = "boom" := (Option.some_inj.mp hm).symm
  have he4 : (runSampling estFail 900000 4500000).apiCallErrors = 4 := by decide
  rw [he4] at hcalc
  rw [hcalc]
  decide

/--
C4: an individual estimator failure never aborts the search: the recorded
options are exactly what the successful calls within the deadline contribute,
the error counter counts exactly the failing calls, the retained `lastError`
is the message of the last failing call, and whenever at least one option is
recorded the optimizer returns a normal result whose option list is exactly
(a permutation of) the recorded successes, with no error surfaced.
-/
theorem c4_partial_failures_tolerated (est : Nat → Except String RouteInfo)
    (es ls : String) (now E L : Nat)
    (hE : parseTimeToDate (some es) now = some E)
    (hL : parseTimeToDate (some ls) now = some L)
    (hlt : E < L) (hW : 15 ≤ timeWindowMinutes E L) :
    ((runSampling est E L).options =
      (runSampling est E L).calls.filterMap (optionOfCall est L)) ∧
    ((runSampling est E L).apiCallErrors =
      (runSampling est E L).calls.countP (isErrCall est)) ∧
    ((runSampling est E L).lastError =
      ((runSampling est E L).calls.filterMap (errOfCall est)).getLast?) ∧
    ((runSampling est E L).options ≠ [] →
      ∃ r, calculateOptimalDepartureTime est es ls now = Except.ok r ∧
        r.departureTimeOptions.Perm (runSampling est E L).options) := by
  have hcalls : (runSampling est E L).calls = candList L E (maxApiCalls E L) :=
    sampleLoop_calls est L (maxApiCalls E L) E
  refine ⟨by rw [hcalls]; exact sampleLoop_options est L (maxApiCalls E L) E,
    by rw [hcalls]; exact sampleLoop_errors est L (maxApiCalls E L) E,
    by rw [hcalls]; exact sampleLoop_lastError est L (maxApiCalls E L) E, ?_⟩
  intro hne
  cases hopt : (runSampling est E L).options with
  | nil => exact absurd hopt hne
  | cons o0 rest =>
    refine ⟨_, by
      rw [calc_valid est es ls now E L hE hL hlt hW,
        buildResult_cons now _ o0 rest hopt], ?_⟩
    exact List.perm_insertionSort (jsLeProp now) (o0 :: rest)

theorem c4_witness :
    (runSampling estMixed 900000 4500000).apiCallErrors =
      (runSampling estMixed 900000 4500000).calls.countP (isErrCall estMixed) :=
  (c4_partial_failures_tolerated estMixed "00:15" "01:15" 0 900000 4500000
    (by decide) (by decide) (by decide) (by decide)).2.1

/--
C5: every validation failure is rejected with its own distinguishable message
before any estimator call: malformed earliest-departure string, malformed
latest-arrival string, latest arrival not strictly after earliest departure,
window shorter than 15 minutes (the "more than 60 seconds in the past" guard
can never fire, since parsed times are never in the past); in all these cases
the outcome is independent of the estimator, i.e. zero estimator calls are
consulted.
-/
theorem c5_validation_rejects_before_estimator
    (est : Nat → Except String RouteInfo) (es ls : String) (now : Nat) :
    (parseTimeToDate (some es) now = none →
      calculateOptimalDepartureTime est es ls now =
        Except.error ("Invalid earliest departure time format: " ++ es ++
          ". Please use HH:MM.")) ∧
    (∀ E, parseTimeToDate (some es) now = some E →
      parseTimeToDate (some ls) now = none →
      calculateOptimalDepartureTime est es ls now =
        Except.error ("Invalid latest arrival time format: " ++ ls ++
          ". Please use HH:MM.")) ∧
    (∀ E L, parseTimeToDate (some es) now = some E →
      parseTimeToDate (some ls) now = some L → L ≤ E →
      calculateOptimalDepartureTime est es ls now =
        Except.error "Latest arrival time must be after earliest departure time.") ∧
    (∀ E, parseTimeToDate (some es) now = some E →
      ¬((E : Int) ≤ (now : Int) - 60000)) ∧
    (∀ E L, parseTimeToDate (some es) now = some E →
      parseTimeToDate (some ls) now = some L → E < L →
      timeWindowMinutes E L < 15 →
      calculateOptimalDepartureTime est es ls now =
        Except.error "The remaining time window until latest arrival is too short to calculate options.") ∧
    (∀ est' : Nat → Except String RouteInfo,
      (parseTimeToDate (some es) now = none ∨
       parseTimeToDate (some ls) now = none ∨
       (∃ E L, parseTimeToDate (some es) now = some E ∧
         parseTimeToDate (some ls) now = some L ∧
         (L ≤ E ∨ timeWindowMinutes E L < 15))) →
      calculateOptimalDepartureTime est es ls now =
        calculateOptimalDepartureTime est' es ls now) := by
  refine ⟨fun hE => calc_earliest_invalid est es ls now hE,
    fun E hE hL => calc_latest_invalid est es ls now E hE hL,
    fun E L hE hL hle => by rw [calc_parsed est es ls now E L hE hL, if_pos hle],
    fun E hE => not_past_guard es now E hE,
    fun E L hE hL hlt hwin => by
      rw [calc_parsed est es ls now E L hE hL, if_neg (by omega),
        if_neg (not_past_guard es now E hE), if_pos hwin], ?_⟩
  intro est' hval
  rcases hval with hE | hL | ⟨E, L, hE, hL, hcase⟩
  · rw [calc_earliest_invalid est es ls now hE,
      calc_earliest_invalid est' es ls now hE]
  · cases hE : parseTimeToDate (some es) now with
    | none =>
      rw [calc_earliest_invalid est es ls now hE,
        calc_earliest_invalid est' es ls now hE]
    | some E =>
      rw [calc_latest_invalid est es ls now E hE hL,
        calc_latest_invalid est' es ls now E hE hL]
  · rcases hcase with hle | hwin
    · rw [calc_parsed est es ls now E L hE hL,
        calc_parsed est' es ls now E L hE hL, if_pos hle, if_pos hle]
    · by_cases hle : L ≤ E
      · rw [calc_parsed est es ls now E L hE hL,
          calc_parsed est' es ls now E L hE hL, if_pos hle, if_pos hle]
      · rw [calc_parsed est es ls now E L hE hL,
          calc_parsed est' es ls now E L hE hL, if_neg hle, if_neg hle,
          if_neg (not_past_guard es now E hE), if_neg (not_past_guard es now E hE),
          if_pos hwin, if_pos hwin]

theorem c5_witness :
    calculateOptimalDepartureTime estLight "7x7" "01:15" 0 = Except.error
      ("Invalid earliest departure time format: " ++ "7x7" ++ ". Please use HH:MM.") ∧
    calculateOptimalDepartureTime estLight "01:15" "00:15" 0 = Except.error
      "Latest arrival time must be after earliest departure time." := by
  refine ⟨(c5_validation_rejects_before_estimator estLight "7x7" "01:15" 0).1
      (by decide), ?_⟩
  exact (c5_validation_rejects_before_estimator estLight "01:15" "00:15" 0).2.2.1
    4500000 900000 (by decide) (by decide) (by decide)

/--
C7: the returned `departureTimeOptions` list contains exactly the recorded
options (a permutation of them), is sorted ascending by the departure instant
each entry's `departureTime` string re-parses to, and the comparator is total:
two unparsable entries compare equal, an unparsable entry sorts after a
parsable one (comparator `1`), and a parsable one before an unparsable one
(comparator `-1`); being a total Lean function, it never throws.
-/
theorem c7_options_sorted_ascending (est : Nat → Except String RouteInfo)
    (es ls : String) (now : Nat) (r : OptimizationResult)
    (h : calculateOptimalDepartureTime est es ls now = Except.ok r) :
    (∃ E L, parseTimeToDate (some es) now = some E ∧
      parseTimeToDate (some ls) now = some L ∧
      r.departureTimeOptions.Perm (runSampling est E L).options) ∧
    r.departureTimeOptions.Pairwise (fun a b => ∃ ta tb,
      parseTimeToDate (some a.departureTime) now = some ta ∧
      parseTimeToDate (some b.departureTime) now = some tb ∧ ta ≤ tb) ∧
    (∀ a b : DepartureOption,
      (parseTimeToDate (some a.departureTime) now = none →
        parseTimeToDate (some b.departureTime) now = none →
        jsCompare now a b = 0) ∧
      (parseTimeToDate (some a.departureTime) now = none →
        (∃ tb, parseTimeToDate (some b.departureTime) now = some tb) →
        jsCompare now a b = 1) ∧
      ((∃ ta, parseTimeToDate (some a.departureTime) now = some ta) →
        parseTimeToDate (some b.departureTime) now = none →
        jsCompare now a b = -1)) := by
  obtain ⟨E, L, hE, hL, hlt, hW, o0, rest, hopt, hr⟩ := calc_ok_inv est es ls now r h
  subst hr
  haveI hTot : IsTotal DepartureOption (jsLeProp now) := ⟨jsLeProp_total now⟩
  haveI hTrans : IsTrans DepartureOption (jsLeProp now) := ⟨jsLeProp_trans now⟩
  have hperm : (List.insertionSort (jsLeProp now) (o0 :: rest)).Perm (o0 :: rest) :=
    List.perm_insertionSort _ _
  have hsorted := List.sorted_insertionSort (jsLeProp now) (o0 :: rest)
  refine ⟨⟨E, L, hE, hL, by rw [hopt]; exact hperm⟩, ?_, ?_⟩
  · refine List.Pairwise.imp_of_mem ?_ hsorted
    intro a b ha hb hab
    have ha' : a ∈ (runSampling est E L).options := by
      rw [hopt]; exact hperm.mem_iff.mp ha
    have hb' : b ∈ (runSampling est E L).options := by
      rw [hopt]; exact hperm.mem_iff.mp hb
    obtain ⟨hpa, -, -⟩ := mem_options_parse est es ls now E L hE hL a ha'
    obtain ⟨hpb, -, -⟩ := mem_options_parse est es ls now E L hE hL b hb'
    refine ⟨a.depMs, b.depMs, hpa, hpb, ?_⟩
    unfold jsLeProp at hab
    rw [jsCompare_some_some now a b a.depMs b.depMs hpa hpb] at hab
    omega
  · intro a b
    exact ⟨fun ha hb => jsCompare_both_none now a b ha hb,
      fun ha hb => jsCompare_none_some now a b hb.choose ha hb.choose_spec,
      fun ha hb => jsCompare_some_none now a b ha.choose ha.choose_spec hb⟩

theorem c7_witness :
    resultLight.departureTimeOptions.Perm
      (runSampling estLight 900000 4500000).options := by
  obtain ⟨⟨E, L, hE, hL, hperm⟩, -, -⟩ :=
    c7_options_sorted_ascending estLight "00:15" "01:15" 0 resultLight (by decide)
  have hp : parseTimeToDate (some "00:15") 0 = some 900000 := by decide
  have hq : parseTimeToDate (some "01:15") 0 = some 4500000 := by decide
  rw [hp] at hE
  rw [hq] at hL
  obtain rfl : E = 900000 := (Option.some_inj.mp hE).symm
  obtain rfl : L = 4500000 := (Option.some_inj.mp hL).symm
  exact hperm

/--
C8: the routes handler's classification of per-segment speed readings: any
`TRAFFIC_JAM` segment forces `SEVERE` regardless of the slow ratio; otherwise,
with `slow` flagged segments out of `total`, a ratio above one half gives
`HEAVY`, above one fifth gives `MODERATE`, and at most one fifth gives
`LIGHT`; absent or empty segment data defaults to `MODERATE`.
-/
theorem c8_traffic_classification :
    (∀ srs : List String, "TRAFFIC_JAM" ∈ srs →
      classifyTraffic (some srs) = "SEVERE") ∧
    (∀ srs : List String, "TRAFFIC_JAM" ∉ srs → srs ≠ [] →
      ((srs.length < 2 * (srs.filter (fun s => s = "SLOW")).length →
        classifyTraffic (some srs) = "HEAVY") ∧
       (2 * (srs.filter (fun s => s = "SLOW")).length ≤ srs.length →
        srs.length < 5 * (srs.filter (fun s => s = "SLOW")).length →
        classifyTraffic (some srs) = "MODERATE") ∧
       (5 * (srs.filter (fun s => s = "SLOW")).length ≤ srs.length →
        classifyTraffic (some srs) = "LIGHT"))) ∧
    classifyTraffic none = "MODERATE" ∧
    classifyTraffic (some []) = "MODERATE" := by
  refine ⟨?_, ?_, rfl, rfl⟩
  · intro srs hjam
    rw [classifyTraffic_some, if_pos]
    exact List.any_eq_true.mpr ⟨"TRAFFIC_JAM", hjam, by simp⟩
  · intro srs hjam hne
    have hany : srs.any (fun interval => interval = "TRAFFIC_JAM") = false := by
      rw [List.any_eq_false]
      intro x hx hpx
      have hxe : x = "TRAFFIC_JAM" := by simpa using hpx
      exact hjam (hxe ▸ hx)
    have hlen : 0 < srs.length := List.length_pos.mpr hne
    rw [classifyTraffic_some, if_neg (by simp [hany]), if_pos hlen]
    refine ⟨fun hH => by rw [if_pos hH],
      fun h2 h5 => by rw [if_neg (by omega), if_pos h5],
      fun h5 => by rw [if_neg (by omega), if_neg (by omega)]⟩

theorem c8_witness :
    classifyTraffic (some ["NORMAL", "TRAFFIC_JAM"]) = "SEVERE" ∧
    classifyTraffic (some ["SLOW", "SLOW", "NORMAL"]) = "HEAVY" ∧
    classifyTraffic (some ["SLOW", "NORMAL", "NORMAL"]) = "MODERATE" ∧
    classifyTraffic (some ["SLOW", "NORMAL", "NORMAL", "NORMAL", "NORMAL",
      "NORMAL"]) = "LIGHT" := by
  have h := c8_traffic_classification
  refine ⟨h.1 ["NORMAL", "TRAFFIC_JAM"] (by decide), ?_, ?_, ?_⟩
  · exact (h.2.1 ["SLOW", "SLOW", "NORMAL"] (by decide) (by decide)).1 (by decide)
  · exact (h.2.1 ["SLOW", "NORMAL", "NORMAL"] (by decide) (by decide)).2.1
      (by decide) (by decide)
  · exact (h.2.1 _ (by decide) (by decide)).2.2 (by decide)

/--
C9 counterexample: with a provider condition of `SEVERE`, the optimizer's
returned `trafficCondition` is the string `"Very Heavy"`, which is not one of
`Light`/`Moderate`/`Heavy`/`Severe` — refuting the claimed ordinal scale
(the code maps both `SEVERE` and `TRAFFIC_JAM` to `"Very Heavy"`).
-/
theorem c9_counterexample :
    resultTrafficCondition
        (calculateOptimalDepartureTime estSevere "00:15" "01:15" 0) =
      some "Very Heavy" ∧
    "Very Heavy" ≠ "Light" ∧ "Very Heavy" ≠ "Moderate" ∧
    "Very Heavy" ≠ "Heavy" ∧ "Very Heavy" ≠ "Severe" := by
  decide

/--
C9 (amended): for every result of `calculateOptimalDepartureTime`, the
`trafficCondition` of the optimal pick and of every listed option belongs to
the scale {Light, Moderate, Heavy, Very Heavy} (the code's name for the
severe bucket is `"Very Heavy"`), and every provider value other than
`LIGHT`/`MODERATE`/`HEAVY`/`SEVERE`/`TRAFFIC_JAM` maps to `Moderate`.
-/
theorem c9_amended_condition_scale (est : Nat → Except String RouteInfo)
    (es ls : String) (now : Nat) (r : OptimizationResult)
    (h : calculateOptimalDepartureTime est es ls now = Except.ok r) :
    (r.trafficCondition = "Light" ∨ r.trafficCondition = "Moderate" ∨
      r.trafficCondition = "Heavy" ∨ r.trafficCondition = "Very Heavy") ∧
    (∀ o ∈ r.departureTimeOptions,
      o.trafficCondition = "Light" ∨ o.trafficCondition = "Moderate" ∨
      o.trafficCondition = "Heavy" ∨ o.trafficCondition = "Very Heavy") ∧
    (∀ s : String, s ≠ "LIGHT" → s ≠ "MODERATE" → s ≠ "HEAVY" → s ≠ "SEVERE" →
      s ≠ "TRAFFIC_JAM" → mapTrafficCondition s = "Moderate") := by
  obtain ⟨E, L, hE, hL, hlt, hW, o0, rest, hopt, hr⟩ := calc_ok_inv est es ls now r h
  subst hr
  have hmemopt : ∀ o ∈ (runSampling est E L).options,
      o.trafficCondition = "Light" ∨ o.trafficCondition = "Moderate" ∨
      o.trafficCondition = "Heavy" ∨ o.trafficCondition = "Very Heavy" := by
    intro o ho
    obtain ⟨t, ht, routeInfo, hest, harr, heqo⟩ :=
      mem_options est L (maxApiCalls E L) E o ho
    have hoc : o.trafficCondition = mapTrafficCondition routeInfo.trafficCondition := by
      rw [heqo]; rfl
    rw [hoc]
    exact mapTrafficCondition_range routeInfo.trafficCondition
  refine ⟨?_, ?_, fun s h1 h2 h3 h4 h5 =>
    mapTrafficCondition_default s h1 h2 h3 h4 h5⟩
  · obtain ⟨l₁, l₂, heq, -, -⟩ := foldl_pickBetter_split rest o0
    have hfold := foldl_pickBetter_cons_self o0 rest
    have hmem : rest.foldl pickBetter o0 ∈ (runSampling est E L).options := by
      rw [hopt, heq]
      exact List.mem_append.mpr (Or.inr (List.mem_cons_self _ _))
    simpa [hfold] using hmemopt _ hmem
  · intro o ho
    have ho' : o ∈ (runSampling est E L).options := by
      rw [hopt]
      exact (List.mem_insertionSort (jsLeProp now)).mp ho
    exact hmemopt o ho'

theorem c9_amended_witness : mapTrafficCondition "UNKNOWN_LABEL" = "Moderate" := by
  have h := c9_amended_condition_scale estLight "00:15" "01:15" 0 resultLight
    (by decide)
  exact h.2.2 "UNKNOWN_LABEL" (by decide) (by decide) (by decide) (by decide)
    (by decide)

end DepartSmart
